import Mathlib

/-!
Shallow embedding of `src/src/main.c` (the controller/APU test variant):
the controller-state encoder (`setKeyState`, `getControllerState`) and the
square-wave synthesizer (`squareWaveCallback`), together with theorems
settling the specification claims about them.
-/

namespace Versanes

/-- Mapping from a physical key to an NES controller button: SDL keycode,
single-bit flag value, human-readable label (`KeyMapping` in `main.c`). -/
structure KeyMapping where
  key : ℕ
  value : ℕ
  label : String
deriving DecidableEq, Repr

/-- Controller 1 binding table (`controller1Keys` in `main.c`):
LALT (A), LCTRL (B), 5 (Select), 1 (Start), arrow keys for directions.
SDL keycodes: SDLK_LALT = 1073742050, SDLK_LCTRL = 1073742048,
SDLK_5 = 53, SDLK_1 = 49, SDLK_UP = 1073741906, SDLK_DOWN = 1073741905,
SDLK_LEFT = 1073741904, SDLK_RIGHT = 1073741903. -/
def controller1Keys : Fin 8 → KeyMapping
  | 0 => ⟨1073742050, 1, "A"⟩
  | 1 => ⟨1073742048, 2, "B"⟩
  | 2 => ⟨53, 4, "Select"⟩
  | 3 => ⟨49, 8, "Start"⟩
  | 4 => ⟨1073741906, 16, "Up"⟩
  | 5 => ⟨1073741905, 32, "Down"⟩
  | 6 => ⟨1073741904, 64, "Left"⟩
  | 7 => ⟨1073741903, 128, "Right"⟩

/-- Controller 2 binding table (`controller2Keys` in `main.c`):
S (A), A (B), 6 (Select), 2 (Start), R/F/D/G for directions.
SDL keycodes: SDLK_s = 115, SDLK_a = 97, SDLK_6 = 54, SDLK_2 = 50,
SDLK_r = 114, SDLK_f = 102, SDLK_d = 100, SDLK_g = 103. -/
def controller2Keys : Fin 8 → KeyMapping
  | 0 => ⟨115, 1, "A"⟩
  | 1 => ⟨97, 2, "B"⟩
  | 2 => ⟨54, 4, "Select"⟩
  | 3 => ⟨50, 8, "Start"⟩
  | 4 => ⟨114, 16, "Up"⟩
  | 5 => ⟨102, 32, "Down"⟩
  | 6 => ⟨100, 64, "Left"⟩
  | 7 => ⟨103, 128, "Right"⟩

/-- `setKeyState(code, pressed)` from `main.c`: for each index `i` in
`0..7`, if the controller-1 binding at `i` has keycode `code` then entry
`i` of controller 1's key state becomes `pressed`, and likewise for
controller 2.  The C loop writes each array slot at most once from its
own condition, so it is exactly this pair of pointwise updates. -/
def setKeyState (code : ℕ) (pressed : Bool) (ks1 ks2 : Fin 8 → Bool) :
    (Fin 8 → Bool) × (Fin 8 → Bool) :=
  (fun i => if (controller1Keys i).key = code then pressed else ks1 i,
   fun i => if (controller2Keys i).key = code then pressed else ks2 i)

/-- `getControllerState(keyState, keyMap)` from `main.c`: starting from
`state = 0`, for `i = 0..7` OR in `keyMap[i].value` whenever
`keyState[i]` is set. -/
def getControllerState (keyState : Fin 8 → Bool) (keyMap : Fin 8 → KeyMapping) : ℕ :=
  (List.finRange 8).foldl
    (fun state i => if keyState i then state ||| (keyMap i).value else state) 0

/-- The same accumulation loop over an explicit list of
(pressed, flag value) pairs, used to express order-independence of the
register computation. -/
def registerOfPairs (l : List (Bool × ℕ)) : ℕ :=
  l.foldl (fun state p => if p.1 then state ||| p.2 else state) 0

/-- Modelled from the spec: "the bitwise OR of exactly the flag values of
the pressed buttons" — the register is the OR over all indices of the
flag value when pressed and `0` otherwise. -/
def pressedFlagsOr (keyState : Fin 8 → Bool) (flags : Fin 8 → ℕ) : ℕ :=
  (List.finRange 8).foldr (fun i acc => (if keyState i then flags i else 0) ||| acc) 0

/-! ## Square-wave synthesizer (`squareWaveCallback` in `main.c`)

The callback's phase arithmetic is done by the C code in `double`; it is
modelled here exactly over `ℚ`.  The per-sample phase increment
`frequency / SAMPLE_RATE` (where `frequency = 440 * 2^(semitoneStep/12)`
is irrational for most steps) is passed to the model as an explicit
parameter `phaseInc`; the frequency formula itself is modelled over `ℝ`
below as `frequency`. -/

def SAMPLE_RATE : ℕ := 44100

def BASE_FREQUENCY : ℕ := 440

def MAX_SEMITONE_STEPS : ℕ := 16

def AMPLITUDE : ℤ := 28000

/-- The mutable synthesis state of `main.c`: the `static` globals
`phase`, `waveTimer` (a `uint32_t`), `volumeLevel` and `semitoneStep`. -/
structure SynthState where
  phase : ℚ
  waveTimer : ℕ
  volumeLevel : ℕ
  semitoneStep : ℕ
deriving DecidableEq, Repr

/-- All four globals start at zero. -/
def initState : SynthState := ⟨0, 0, 0, 0⟩

/-- `scaledAmplitude = (AMPLITUDE * volumeLevel) / (MAX_SEMITONE_STEPS - 1)`
from `main.c` (C integer division on nonnegative operands). -/
def scaledAmplitude (volumeLevel : ℕ) : ℤ :=
  (AMPLITUDE * volumeLevel) / (MAX_SEMITONE_STEPS - 1 : ℕ)

/-- One per-sample phase update from the loop body of
`squareWaveCallback`: `phase += phaseInc; if (phase >= 1.0) phase -= 1.0;`. -/
def phaseStep (phaseInc phase : ℚ) : ℚ :=
  if 1 ≤ phase + phaseInc then phase + phaseInc - 1 else phase + phaseInc

/-- The phase accumulator after `n` samples of the loop. -/
def phaseAfter (phaseInc phase : ℚ) : ℕ → ℚ
  | 0 => phase
  | n + 1 => phaseStep phaseInc (phaseAfter phaseInc phase n)

/-- The samples written by the loop of `squareWaveCallback`:
`buffer[i] = (phase < 0.5 ? scaledAmplitude : -scaledAmplitude)`,
then the phase is stepped. -/
def synthSamples (phaseInc : ℚ) (amp : ℤ) : ℚ → ℕ → List ℤ
  | _, 0 => []
  | phase, n + 1 =>
    (if phase < 1/2 then amp else -amp) :: synthSamples phaseInc amp (phaseStep phaseInc phase) n

/-- `squareWaveCallback` from `main.c` as a state transformer: given the
per-sample phase increment and the requested sample count, produce the
buffer and the updated globals.  `scaledAmplitude` is computed once
before the loop; after the loop `waveTimer += numSamples` (mod `2^32`),
and both counters advance by one modulo `MAX_SEMITONE_STEPS`. -/
def squareWaveCallback (phaseInc : ℚ) (s : SynthState) (numSamples : ℕ) :
    List ℤ × SynthState :=
  let amp := scaledAmplitude s.volumeLevel
  (synthSamples phaseInc amp s.phase numSamples,
   { phase := phaseAfter phaseInc s.phase numSamples,
     waveTimer := (s.waveTimer + numSamples) % 2 ^ 32,
     volumeLevel := (s.volumeLevel + 1) % MAX_SEMITONE_STEPS,
     semitoneStep := (s.semitoneStep + 1) % MAX_SEMITONE_STEPS })

/-- A run of consecutive callback invocations: each element of `trace`
gives the phase increment and the sample count of one invocation. -/
def runCallbacks (trace : List (ℚ × ℕ)) (s : SynthState) : SynthState :=
  trace.foldl (fun st p => (squareWaveCallback p.1 st p.2).2) s

/-- The per-buffer frequency computed by `squareWaveCallback`:
`BASE_FREQUENCY * pow(2.0, semitoneStep / 12.0)`, modelled exactly
over the reals. -/
noncomputable def frequency (semitoneStep : ℕ) : ℝ :=
  (BASE_FREQUENCY : ℝ) * Real.rpow 2 ((semitoneStep : ℝ) / 12)

/-! ## Helper lemmas for the encoder -/

lemma foldl_lor_eq {α : Type} (g : α → ℕ) :
    ∀ (l : List α) (s : ℕ),
      l.foldl (fun st a => st ||| g a) s = s ||| l.foldr (fun a acc => g a ||| acc) 0
  | [], s => (Nat.or_zero s).symm
  | a :: l, s => by
    rw [List.foldl_cons, List.foldr_cons, foldl_lor_eq g l (s ||| g a), Nat.lor_assoc]

lemma getControllerState_eq_pressedFlagsOr (ks : Fin 8 → Bool) (km : Fin 8 → KeyMapping) :
    getControllerState ks km = pressedFlagsOr ks (fun i => (km i).value) := by
  unfold getControllerState pressedFlagsOr
  have hstep :
      (fun (state : ℕ) (i : Fin 8) => if ks i then state ||| (km i).value else state) =
        fun (state : ℕ) (i : Fin 8) => state ||| (if ks i then (km i).value else 0) := by
    funext s i
    by_cases h : ks i <;> simp [h]
  rw [hstep, foldl_lor_eq (fun i => if ks i then (km i).value else 0), Nat.zero_or]

lemma registerOfPairs_rightComm :
    RightCommutative (fun (state : ℕ) (p : Bool × ℕ) =>
      if p.1 then state ||| p.2 else state) := by
  refine ⟨fun b p q => ?_⟩
  rcases p with ⟨bp, vp⟩
  rcases q with ⟨bq, vq⟩
  cases bp <;> cases bq <;> simp
  rw [Nat.lor_assoc, Nat.lor_comm vp vq, ← Nat.lor_assoc]

lemma registerOfPairs_perm {l₁ l₂ : List (Bool × ℕ)} (h : l₁.Perm l₂) :
    registerOfPairs l₁ = registerOfPairs l₂ := by
  haveI := registerOfPairs_rightComm
  exact h.foldl_eq 0

lemma getControllerState_eq_registerOfPairs (ks : Fin 8 → Bool) (km : Fin 8 → KeyMapping) :
    getControllerState ks km =
      registerOfPairs ((List.finRange 8).map fun i => (ks i, (km i).value)) := by
  unfold getControllerState registerOfPairs
  rw [List.foldl_map]

/-! ## Claim theorems for the encoder -/

/-- C1: `getControllerState` returns exactly the bitwise OR of the flag
values whose key-state entry is true, independent of button order; the
all-false state yields 0, the all-true state yields 255, and on
controller 1 pressing only "Up" (16) and "A" (1) yields 17 while
releasing "Up" from that state yields 1. -/
theorem claim_C1 :
    (∀ (ks : Fin 8 → Bool) (km : Fin 8 → KeyMapping),
        getControllerState ks km = pressedFlagsOr ks (fun i => (km i).value)) ∧
    (∀ (ks : Fin 8 → Bool) (km : Fin 8 → KeyMapping),
        getControllerState ks km =
          registerOfPairs ((List.finRange 8).map fun i => (ks i, (km i).value))) ∧
    (∀ l₁ l₂ : List (Bool × ℕ), l₁.Perm l₂ → registerOfPairs l₁ = registerOfPairs l₂) ∧
    getControllerState (fun _ => false) controller1Keys = 0 ∧
    getControllerState (fun _ => true) controller1Keys = 255 ∧
    getControllerState (fun i => i == 0 || i == 4) controller1Keys = 17 ∧
    getControllerState
      ((setKeyState 1073741906 false (fun i => i == 0 || i == 4) (fun _ => false)).1)
      controller1Keys = 1 := by
  refine ⟨getControllerState_eq_pressedFlagsOr, getControllerState_eq_registerOfPairs,
    fun l₁ l₂ h => registerOfPairs_perm h, by decide, by decide, by decide, by decide⟩

/-- Witness for C1: the order-independence component instantiated at a
concrete permutation of the pressed "Up"/"A" pairs. -/
theorem claim_C1_witness :
    registerOfPairs [(true, 16), (true, 1)] = registerOfPairs [(true, 1), (true, 16)] :=
  claim_C1.2.2.1 [(true, 16), (true, 1)] [(true, 1), (true, 16)] (by decide)

/-! ## Helper lemmas for the synthesizer -/

lemma phaseStep_mem {phaseInc phase : ℚ} (hi0 : 0 ≤ phaseInc) (hi1 : phaseInc < 1)
    (hp0 : 0 ≤ phase) (hp1 : phase < 1) :
    0 ≤ phaseStep phaseInc phase ∧ phaseStep phaseInc phase < 1 := by
  unfold phaseStep
  by_cases h : 1 ≤ phase + phaseInc
  · rw [if_pos h]
    exact ⟨by linarith, by linarith⟩
  · rw [if_neg h]
    exact ⟨hp0.trans (by linarith), by linarith⟩

lemma phaseAfter_mem {phaseInc phase : ℚ} (hi0 : 0 ≤ phaseInc) (hi1 : phaseInc < 1)
    (hp0 : 0 ≤ phase) (hp1 : phase < 1) :
    ∀ n, 0 ≤ phaseAfter phaseInc phase n ∧ phaseAfter phaseInc phase n < 1
  | 0 => ⟨hp0, hp1⟩
  | n + 1 => by
    obtain ⟨h0, h1⟩ := phaseAfter_mem hi0 hi1 hp0 hp1 n
    exact phaseStep_mem hi0 hi1 h0 h1

lemma squareWaveCallback_phase (phaseInc : ℚ) (s : SynthState) (numSamples : ℕ) :
    (squareWaveCallback phaseInc s numSamples).2.phase =
      phaseAfter phaseInc s.phase numSamples := rfl

lemma runCallbacks_phase_mem :
    ∀ (trace : List (ℚ × ℕ)) (s : SynthState),
      (∀ p ∈ trace, 0 ≤ p.1 ∧ p.1 < 1) → 0 ≤ s.phase → s.phase < 1 →
      0 ≤ (runCallbacks trace s).phase ∧ (runCallbacks trace s).phase < 1
  | [], s, _, hp0, hp1 => ⟨hp0, hp1⟩
  | p :: t, s, htr, hp0, hp1 => by
    obtain ⟨hi0, hi1⟩ := htr p (List.mem_cons_self p t)
    have hnext := phaseAfter_mem hi0 hi1 hp0 hp1 p.2
    rw [show runCallbacks (p :: t) s = runCallbacks t (squareWaveCallback p.1 s p.2).2 from rfl]
    exact runCallbacks_phase_mem t _ (fun q hq => htr q (List.mem_cons_of_mem p hq))
      hnext.1 hnext.2

lemma phaseAfter_step_front (phaseInc phase : ℚ) :
    ∀ n, phaseAfter phaseInc (phaseStep phaseInc phase) n = phaseAfter phaseInc phase (n + 1)
  | 0 => rfl
  | n + 1 => by
    rw [show phaseAfter phaseInc (phaseStep phaseInc phase) (n + 1) =
          phaseStep phaseInc (phaseAfter phaseInc (phaseStep phaseInc phase) n) from rfl,
        phaseAfter_step_front phaseInc phase n]
    rfl

lemma synthSamples_getElem (phaseInc : ℚ) (amp : ℤ) :
    ∀ (n i : ℕ) (phase : ℚ), i < n →
      (synthSamples phaseInc amp phase n)[i]? =
        some (if phaseAfter phaseInc phase i < 1/2 then amp else -amp)
  | 0, i, _, h => absurd h (Nat.not_lt_zero i)
  | n + 1, 0, phase, _ => by
    rw [show synthSamples phaseInc amp phase (n + 1) =
          (if phase < 1/2 then amp else -amp) ::
            synthSamples phaseInc amp (phaseStep phaseInc phase) n from rfl,
        List.getElem?_cons_zero]
    rfl
  | n + 1, i + 1, phase, h => by
    rw [show synthSamples phaseInc amp phase (n + 1) =
          (if phase < 1/2 then amp else -amp) ::
            synthSamples phaseInc amp (phaseStep phaseInc phase) n from rfl,
        List.getElem?_cons_succ,
        synthSamples_getElem phaseInc amp n i (phaseStep phaseInc phase)
          (Nat.lt_of_succ_lt_succ h),
        phaseAfter_step_front]

/-! ## Claim theorems for the synthesizer -/

/-- C2: starting from any phase in `[0,1)` and any per-sample phase
increment `frequency/sampleRate` in `[0,1)`, one wrap step leaves the
phase in `[0,1)`; hence every sample of the loop, the post-state of one
callback, and the post-state of any run of callbacks keep the phase
accumulator in `[0,1)`. -/
theorem claim_C2 :
    (∀ phaseInc phase : ℚ, 0 ≤ phaseInc → phaseInc < 1 → 0 ≤ phase → phase < 1 →
        0 ≤ phaseStep phaseInc phase ∧ phaseStep phaseInc phase < 1) ∧
    (∀ (phaseInc phase : ℚ) (n : ℕ), 0 ≤ phaseInc → phaseInc < 1 → 0 ≤ phase → phase < 1 →
        0 ≤ phaseAfter phaseInc phase n ∧ phaseAfter phaseInc phase n < 1) ∧
    (∀ (phaseInc : ℚ) (s : SynthState) (numSamples : ℕ),
        0 ≤ phaseInc → phaseInc < 1 → 0 ≤ s.phase → s.phase < 1 →
        0 ≤ (squareWaveCallback phaseInc s numSamples).2.phase ∧
        (squareWaveCallback phaseInc s numSamples).2.phase < 1) ∧
    (∀ (trace : List (ℚ × ℕ)) (s : SynthState),
        (∀ p ∈ trace, 0 ≤ p.1 ∧ p.1 < 1) → 0 ≤ s.phase → s.phase < 1 →
        0 ≤ (runCallbacks trace s).phase ∧ (runCallbacks trace s).phase < 1) := by
  refine ⟨fun i p hi0 hi1 hp0 hp1 => phaseStep_mem hi0 hi1 hp0 hp1,
    fun i p n hi0 hi1 hp0 hp1 => phaseAfter_mem hi0 hi1 hp0 hp1 n,
    fun i s n hi0 hi1 hp0 hp1 => ?_,
    fun trace s htr hp0 hp1 => runCallbacks_phase_mem trace s htr hp0 hp1⟩
  rw [squareWaveCallback_phase]
  exact phaseAfter_mem hi0 hi1 hp0 hp1 n

/-- Witness for C2: the wrap step at phase `0` with increment `0`. -/
theorem claim_C2_witness : 0 ≤ phaseStep 0 0 ∧ phaseStep 0 0 < 1 :=
  claim_C2.1 0 0 (by decide) (by decide) (by decide) (by decide)

/-- C3: within one callback invocation the emitted buffer is exactly
`synthSamples` at the amplitude scale `scaledAmplitude volumeLevel`
computed once from the pre-state and held constant; every sample `i`
equals `+amp` when the phase before sample `i` is below `1/2` and
`-amp` otherwise; and the amplitude scale is
`AMPLITUDE * volumeLevel / (MAX_SEMITONE_STEPS - 1)`. -/
theorem claim_C3 :
    (∀ (phaseInc : ℚ) (s : SynthState) (numSamples : ℕ),
        (squareWaveCallback phaseInc s numSamples).1 =
          synthSamples phaseInc (scaledAmplitude s.volumeLevel) s.phase numSamples) ∧
    (∀ (phaseInc : ℚ) (amp : ℤ) (phase : ℚ) (n i : ℕ), i < n →
        (synthSamples phaseInc amp phase n)[i]? =
          some (if phaseAfter phaseInc phase i < 1/2 then amp else -amp)) ∧
    (∀ v : ℕ, scaledAmplitude v = (AMPLITUDE * v) / (MAX_SEMITONE_STEPS - 1 : ℕ)) :=
  ⟨fun _ _ _ => rfl,
   fun phaseInc amp phase n i h => synthSamples_getElem phaseInc amp n i phase h,
   fun _ => rfl⟩

/-- Witness for C3: sample 1 of a 2-sample buffer at increment `0`,
amplitude `7`, starting phase `0`. -/
theorem claim_C3_witness :
    (synthSamples 0 7 0 2)[1]? = some (if phaseAfter 0 0 1 < 1/2 then (7 : ℤ) else -7) :=
  claim_C3.2.1 0 7 0 2 1 (by decide)

/-- C4: the per-buffer frequency is `BASE_FREQUENCY * 2^(step/12)`;
at step 0 it is exactly `BASE_FREQUENCY`, and at step 12 it is exactly
`2 * BASE_FREQUENCY = 880` Hz. -/
theorem claim_C4 :
    (∀ s : ℕ, frequency s = (BASE_FREQUENCY : ℝ) * Real.rpow 2 ((s : ℝ) / 12)) ∧
    frequency 0 = (BASE_FREQUENCY : ℝ) ∧
    frequency 12 = 2 * (BASE_FREQUENCY : ℝ) ∧
    frequency 12 = 880 := by
  have h0 : frequency 0 = (BASE_FREQUENCY : ℝ) := by
    unfold frequency
    norm_num
  have h12 : frequency 12 = 2 * (BASE_FREQUENCY : ℝ) := by
    unfold frequency
    rw [show ((12 : ℕ) : ℝ) / 12 = 1 by norm_num,
      show Real.rpow 2 1 = 2 from Real.rpow_one 2]
    ring
  refine ⟨fun _ => rfl, h0, h12, ?_⟩
  rw [h12]
  unfold BASE_FREQUENCY
  norm_num

/-- C5: the pitch and volume counters advance exactly once per callback
by `(step + 1) % MAX_SEMITONE_STEPS`, always land in
`0..MAX_SEMITONE_STEPS - 1`, and a counter at
`MAX_SEMITONE_STEPS - 1` wraps back to `0`. -/
theorem claim_C5 :
    (∀ (phaseInc : ℚ) (s : SynthState) (numSamples : ℕ),
        (squareWaveCallback phaseInc s numSamples).2.semitoneStep =
          (s.semitoneStep + 1) % MAX_SEMITONE_STEPS ∧
        (squareWaveCallback phaseInc s numSamples).2.volumeLevel =
          (s.volumeLevel + 1) % MAX_SEMITONE_STEPS) ∧
    (∀ k : ℕ, (k + 1) % MAX_SEMITONE_STEPS < MAX_SEMITONE_STEPS) ∧
    (∀ (phaseInc : ℚ) (s : SynthState) (numSamples : ℕ),
        (squareWaveCallback phaseInc s numSamples).2.semitoneStep < MAX_SEMITONE_STEPS ∧
        (squareWaveCallback phaseInc s numSamples).2.volumeLevel < MAX_SEMITONE_STEPS) ∧
    (MAX_SEMITONE_STEPS - 1 + 1) % MAX_SEMITONE_STEPS = 0 := by
  have hlt : ∀ k : ℕ, (k + 1) % MAX_SEMITONE_STEPS < MAX_SEMITONE_STEPS :=
    fun k => Nat.mod_lt _ (by decide)
  exact ⟨fun _ _ _ => ⟨rfl, rfl⟩, hlt,
    fun phaseInc s n => ⟨hlt s.semitoneStep, hlt s.volumeLevel⟩, by decide⟩

/-! ## Claim theorems for key transitions and determinism -/

/-- C6: `setKeyState` sets entry `i` of a controller's key state to
`pressed` exactly when that controller's binding at `i` matches the key
(both controllers update when both match), and a key bound in neither
table leaves both key states entirely unchanged. -/
theorem claim_C6 :
    (∀ (code : ℕ) (pressed : Bool) (ks1 ks2 : Fin 8 → Bool) (i : Fin 8),
        ((controller1Keys i).key = code → (setKeyState code pressed ks1 ks2).1 i = pressed) ∧
        ((controller1Keys i).key ≠ code → (setKeyState code pressed ks1 ks2).1 i = ks1 i) ∧
        ((controller2Keys i).key = code → (setKeyState code pressed ks1 ks2).2 i = pressed) ∧
        ((controller2Keys i).key ≠ code → (setKeyState code pressed ks1 ks2).2 i = ks2 i)) ∧
    (∀ (code : ℕ) (pressed : Bool) (ks1 ks2 : Fin 8 → Bool),
        (∀ i : Fin 8, (controller1Keys i).key ≠ code ∧ (controller2Keys i).key ≠ code) →
        setKeyState code pressed ks1 ks2 = (ks1, ks2)) := by
  constructor
  · intro code pressed ks1 ks2 i
    refine ⟨fun h => ?_, fun h => ?_, fun h => ?_, fun h => ?_⟩ <;> simp [setKeyState, h]
  · intro code pressed ks1 ks2 h
    unfold setKeyState
    refine Prod.ext ?_ ?_
    · funext i
      simp [(h i).1]
    · funext i
      simp [(h i).2]

/-- Witness for C6: the escape key (27), bound in neither table, changes
nothing; pressing LALT (1073742050) sets controller 1's "A" entry. -/
theorem claim_C6_witness :
    setKeyState 27 true (fun _ => false) (fun _ => false) =
      (fun _ => false, fun _ => false) ∧
    (setKeyState 1073742050 true (fun _ => false) (fun _ => false)).1 0 = true :=
  ⟨claim_C6.2 27 true (fun _ => false) (fun _ => false) (by decide),
   (claim_C6.1 1073742050 true (fun _ => false) (fun _ => false) 0).1 (by decide)⟩

/-- C7: a key bound in controller 1's table but in neither entry of
controller 2's table leaves controller 2's key state, and hence its
register, unchanged under any transition. -/
theorem claim_C7 :
    ∀ code : ℕ, (∃ i : Fin 8, (controller1Keys i).key = code) →
      (∀ i : Fin 8, (controller2Keys i).key ≠ code) →
      ∀ (pressed : Bool) (ks1 ks2 : Fin 8 → Bool),
        (setKeyState code pressed ks1 ks2).2 = ks2 ∧
        getControllerState ((setKeyState code pressed ks1 ks2).2) controller2Keys =
          getControllerState ks2 controller2Keys := by
  intro code _ h2 pressed ks1 ks2
  have heq : (setKeyState code pressed ks1 ks2).2 = ks2 := by
    funext i
    simp [setKeyState, h2 i]
  exact ⟨heq, by rw [heq]⟩

/-- Witness for C7: the "Up" arrow key (1073741906) is bound only in
controller 1's table; pressing it leaves controller 2 untouched. -/
theorem claim_C7_witness :
    (setKeyState 1073741906 true (fun _ => false) (fun _ => false)).2 = (fun _ => false) ∧
    getControllerState ((setKeyState 1073741906 true (fun _ => false) (fun _ => false)).2)
        controller2Keys =
      getControllerState (fun _ => false) controller2Keys :=
  claim_C7 1073741906 (by decide) (by decide) true (fun _ => false) (fun _ => false)

/-- The multiset of key identifiers bound across the two controllers'
tables, in table order. -/
def allBoundKeys : List ℕ :=
  ((List.finRange 8).map fun i => (controller1Keys i).key) ++
    ((List.finRange 8).map fun i => (controller2Keys i).key)

/-- C8: the two 8-entry binding tables carry 16 pairwise distinct key
identifiers, and no key is shared between the two controllers. -/
theorem claim_C8 :
    allBoundKeys.Nodup ∧ allBoundKeys.length = 16 ∧
    ∀ i j : Fin 8, (controller1Keys i).key ≠ (controller2Keys j).key := by
  decide

/-- C9: input encoding and waveform generation are deterministic pure
computations: equal key states and binding tables give equal registers,
and equal phase increments, pre-states and sample counts give identical
sample buffers and identical post-states. -/
theorem claim_C9 :
    (∀ (ks ks' : Fin 8 → Bool) (km km' : Fin 8 → KeyMapping),
        ks = ks' → km = km' → getControllerState ks km = getControllerState ks' km') ∧
    (∀ (phaseInc phaseInc' : ℚ) (s s' : SynthState) (n n' : ℕ),
        phaseInc = phaseInc' → s = s' → n = n' →
        squareWaveCallback phaseInc s n = squareWaveCallback phaseInc' s' n') := by
  constructor
  · rintro ks ks' km km' rfl rfl
    rfl
  · rintro phaseInc phaseInc' s s' n n' rfl rfl rfl
    rfl

/-- Witness for C9: both components applied at concrete equal inputs. -/
theorem claim_C9_witness :
    getControllerState (fun _ => false) controller1Keys =
      getControllerState (fun _ => false) controller1Keys ∧
    squareWaveCallback 0 initState 2 = squareWaveCallback 0 initState 2 :=
  ⟨claim_C9.1 (fun _ => false) (fun _ => false) controller1Keys controller1Keys rfl rfl,
   claim_C9.2 0 0 initState initState 2 2 rfl rfl rfl⟩

lemma runCallbacks_counters_eq :
    ∀ (trace : List (ℚ × ℕ)) (s : SynthState),
      s.semitoneStep = s.volumeLevel →
      (runCallbacks trace s).semitoneStep = (runCallbacks trace s).volumeLevel
  | [], _, h => h
  | p :: t, s, h => by
    rw [show runCallbacks (p :: t) s = runCallbacks t (squareWaveCallback p.1 s p.2).2 from rfl]
    refine runCallbacks_counters_eq t _ ?_
    rw [show (squareWaveCallback p.1 s p.2).2.semitoneStep =
          (s.semitoneStep + 1) % MAX_SEMITONE_STEPS from rfl,
        show (squareWaveCallback p.1 s p.2).2.volumeLevel =
          (s.volumeLevel + 1) % MAX_SEMITONE_STEPS from rfl,
        h]

/-- C10: both sweep counters start at 0, one callback preserves their
equality (each advances by one modulo the same range), and hence after
any run of callbacks from the initial state the pitch step always
equals the volume step. -/
theorem claim_C10 :
    initState.semitoneStep = 0 ∧ initState.volumeLevel = 0 ∧
    (∀ (phaseInc : ℚ) (s : SynthState) (numSamples : ℕ),
        s.semitoneStep = s.volumeLevel →
        (squareWaveCallback phaseInc s numSamples).2.semitoneStep =
          (squareWaveCallback phaseInc s numSamples).2.volumeLevel) ∧
    ∀ trace : List (ℚ × ℕ),
      (runCallbacks trace initState).semitoneStep =
        (runCallbacks trace initState).volumeLevel := by
  refine ⟨rfl, rfl, fun phaseInc s numSamples h => ?_,
    fun trace => runCallbacks_counters_eq trace initState rfl⟩
  rw [show (squareWaveCallback phaseInc s numSamples).2.semitoneStep =
        (s.semitoneStep + 1) % MAX_SEMITONE_STEPS from rfl,
      show (squareWaveCallback phaseInc s numSamples).2.volumeLevel =
        (s.volumeLevel + 1) % MAX_SEMITONE_STEPS from rfl,
      h]

/-- Witness for C10: one callback from the initial state keeps the two
counters equal. -/
theorem claim_C10_witness :
    (squareWaveCallback 0 initState 5).2.semitoneStep =
      (squareWaveCallback 0 initState 5).2.volumeLevel :=
  claim_C10.2.2.1 0 initState 5 rfl

end Versanes
